import Mathlib

/-!
Shallow embedding of the `portfolio-tracker` repository
(`src/app/routes/_index.tsx`, `src/app/services/coingecko.server.ts`,
`src/app/services/goldapi.server.ts`, and the Alpha Vantage service embedded
in the routes module).

Conventions of the embedding:
* JavaScript numbers are modelled as rationals (`ℚ`); every price the code
  actually lets through is a finite parsed float, and the arithmetic the
  claims are about (`quantity * price`, `value / quantity`) is exact on the
  values the code computes.
* JavaScript objects used as string-keyed maps are association lists
  (`List (String × _)`); property assignment is `objInsert`, object spread
  is `spreadMerge`, `Object.keys` is `List.map Prod.fst`.
* `fetch` is an oracle `String → HttpOutcome β`: the URL determines the
  outcome, which is either a parsed 2xx body, a non-2xx response, or a
  rejected promise (network failure / JSON parse failure).
* A function that can throw returns `Except String _`; `Promise.all`
  rejecting is the propagation of the first `Except.error`.
* Elapsed time is modelled by an event trace (`FetchEvent`): the sequential
  adapters return the list of delay / request events they perform, in order.
-/

namespace PortfolioTracker

/-! ### Models of the JavaScript string primitives used by the code -/

/-- Model of JavaScript `String.prototype.split(',')`: cut the character list
at every comma; `""` splits to `[""]`, like in JS. -/
def splitCommasAux : List Char → List Char → List String
  | [], acc => [String.mk acc.reverse]
  | c :: rest, acc =>
    if c = ',' then String.mk acc.reverse :: splitCommasAux rest []
    else splitCommasAux rest (c :: acc)

/-- JavaScript `s.split(',')`. -/
def splitCommas (s : String) : List String :=
  splitCommasAux s.data []

/-- Whitespace characters relevant to JavaScript `String.prototype.trim` for
the inputs at hand. -/
def isJsWhitespace (c : Char) : Bool :=
  c = ' ' ∨ c = '\t' ∨ c = '\n' ∨ c = '\r'

/-- JavaScript `s.trim()`. -/
def trimString (s : String) : String :=
  String.mk (((s.data.dropWhile isJsWhitespace).reverse.dropWhile isJsWhitespace).reverse)

/-- JavaScript `s.toUpperCase()` (the ids in play are ASCII). -/
def toUpperString (s : String) : String :=
  String.mk (s.data.map Char.toUpper)

/-- Lexicographic comparison on the underlying character lists; agrees with
the default JavaScript `Array.prototype.sort` comparator on the ASCII ids the
code sorts. -/
def charListLe : List Char → List Char → Bool
  | [], _ => true
  | _ :: _, [] => false
  | a :: as, b :: bs => if a = b then charListLe as bs else decide (a < b)

/-- String comparison used by the sort model. -/
def strLe (a b : String) : Bool :=
  charListLe a.data b.data

/-- Insertion step of the sort model. -/
def insertSorted (x : String) : List String → List String
  | [] => [x]
  | y :: ys => if strLe x y then x :: y :: ys else y :: insertSorted x ys

/-- Model of JavaScript `Array.prototype.sort()` on string arrays (insertion
sort; JS sort is only observed through the sorted result here). -/
def sortStrings : List String → List String
  | [] => []
  | x :: xs => insertSorted x (sortStrings xs)

/-- JavaScript `Array.prototype.join(',')`. -/
def joinCommas : List String → String
  | [] => ""
  | [x] => x
  | x :: xs => x ++ "," ++ joinCommas xs

/-- Fold a digit list into a natural number. -/
def digitsToNat (s : List Char) : Nat :=
  s.foldl (fun n c => n * 10 + (c.toNat - 48)) 0

/-- Model of JavaScript `parseFloat` on the vendor price strings: optional
sign, then a decimal literal read as a prefix; `none` models `NaN` (no
leading digits at all). Exponent notation and `Infinity` are not produced by
the vendors modelled here and are not modelled. -/
def parseFloat (s : String) : Option ℚ :=
  let cs := s.data
  let signAndRest : Bool × List Char :=
    match cs with
    | '-' :: rest => (true, rest)
    | '+' :: rest => (false, rest)
    | _ => (false, cs)
  let intPart := signAndRest.2.takeWhile Char.isDigit
  let afterInt := signAndRest.2.dropWhile Char.isDigit
  let fracPart : List Char :=
    match afterInt with
    | '.' :: r => r.takeWhile Char.isDigit
    | _ => []
  if intPart = [] ∧ fracPart = [] then none
  else
    let ip : ℚ := (digitsToNat intPart : ℚ)
    let fp : ℚ := (digitsToNat fracPart : ℚ) / ((10 : ℚ) ^ fracPart.length)
    some (if signAndRest.1 then -(ip + fp) else ip + fp)

/-! ### Data model (`_index.tsx`, interfaces `Asset`, `CalculatedAsset`,
`PriceData`, `AllPrices`) -/

/-- The `type` field of an `Asset` (`'crypto' | 'stock' | 'commodity' |
'real_estate' | 'other'`). The spec calls `stock` "equity" and
`currentValue` "manualValue". -/
inductive AssetType where
  | crypto
  | stock
  | commodity
  | real_estate
  | other
deriving DecidableEq, Repr

/-- The persisted `Asset` interface. `quantity` is always present;
`purchaseValue` and `currentValue` are optional. -/
structure Asset where
  id : String
  type : AssetType
  symbol : String
  name : String
  quantity : ℚ
  purchaseValue : Option ℚ
  currentValue : Option ℚ
deriving DecidableEq, Repr

/-- The unified price record `PriceData { usd: number }`. -/
structure PriceData where
  usd : ℚ
deriving DecidableEq, Repr

/-- `AllPrices`: a JS object keyed by asset id, as an association list. -/
abbrev AllPrices := List (String × PriceData)

/-- JS property assignment `m[k] = v`: overwrite in place if the key is
present, else append a new key in insertion order. -/
def objInsert (m : AllPrices) (k : String) (v : PriceData) : AllPrices :=
  if (m.lookup k).isSome = true then
    m.map (fun p => if p.1 = k then (k, v) else p)
  else m ++ [(k, v)]

/-- JS object spread `{...a, ...b}` restricted to what the claims observe:
every key of `b` is written into `a` in order, so `b` wins on collisions. -/
def spreadMerge (a b : AllPrices) : AllPrices :=
  b.foldl (fun acc p => objInsert acc p.1 p.2) a

/-- `CalculatedAsset extends Asset` with the derived, never-persisted
fields. -/
structure CalculatedAsset extends Asset where
  price : Option ℚ
  calculatedValue : Option ℚ
deriving DecidableEq, Repr

/-! ### Network model shared by the adapters -/

/-- Outcome of one `fetch` + `response.json()` round trip: a parsed 2xx
body, a non-2xx response (`response.ok === false`), or a rejected promise
(network failure or JSON parse failure). -/
inductive HttpOutcome (β : Type) where
  | ok (body : β)
  | httpError (status : Nat)
  | networkFailure (msg : String)
deriving DecidableEq, Repr

/-- Events of the sequential adapters, in execution order: a `setTimeout`
delay in milliseconds, or one vendor request. -/
inductive FetchEvent where
  | delay (ms : Nat)
  | request (id : String)
deriving DecidableEq, Repr

/-- Total milliseconds of deliberate delay in a trace. -/
def totalDelay : List FetchEvent → Nat
  | [] => 0
  | FetchEvent.delay ms :: rest => ms + totalDelay rest
  | FetchEvent.request _ :: rest => totalDelay rest

/-! ### Crypto adapter (`coingecko.server.ts`) -/

/-- URL built by `fetchCryptoPrices`. -/
def cryptoPriceUrl (ids : List String) : String :=
  "https://api.coingecko.com/api/v3/simple/price?ids=" ++ joinCommas ids
    ++ "&vs_currencies=usd"

/-- `fetchCryptoPrices`: empty input short-circuits to `{}`; a non-2xx
response throws `CoinGecko API request failed: ...`; a network error is
re-thrown; a 2xx body is returned as-is (the code performs no validation of
the payload). The oracle body is typed as the well-formed shape here; the
throwing behaviour does not depend on it. -/
def fetchCryptoPrices (oracle : String → HttpOutcome AllPrices)
    (ids : List String) : Except String AllPrices :=
  if ids.isEmpty = true then Except.ok []
  else
    match oracle (cryptoPriceUrl ids) with
    | HttpOutcome.ok body => Except.ok body
    | HttpOutcome.httpError status =>
        Except.error ("CoinGecko API request failed: " ++ toString status)
    | HttpOutcome.networkFailure msg => Except.error msg

/-- The part of the CoinGecko `market_chart` payload the code reads. -/
structure HistoryResponse where
  prices : List (Int × ℚ)
deriving DecidableEq, Repr

/-- URL built by `fetchCryptoHistory`. -/
def cryptoHistoryUrl (id : String) (days : Nat) : String :=
  "https://api.coingecko.com/api/v3/coins/" ++ id
    ++ "/market_chart?vs_currency=usd&days=" ++ toString days ++ "&interval=daily"

/-- `fetchCryptoHistory`: throws on non-2xx or network error; on success
drops the last point when it is less than 23 hours old relative to `now`
(`Date.now()`), modelling the partial-day filter. -/
def fetchCryptoHistory (oracle : String → HttpOutcome HistoryResponse)
    (id : String) (days : Nat) (now : Int) : Except String HistoryResponse :=
  match oracle (cryptoHistoryUrl id days) with
  | HttpOutcome.httpError status =>
      Except.error ("CoinGecko API request failed for history: " ++ toString status)
  | HttpOutcome.networkFailure msg => Except.error msg
  | HttpOutcome.ok data =>
      match data.prices.getLast? with
      | some lastEntry =>
          if now - lastEntry.1 < 23 * 60 * 60 * 1000 then
            Except.ok ⟨data.prices.dropLast⟩
          else Except.ok data
      | none => Except.ok data

/-! ### Equity adapter (`fetchStockPrices` + `fetchWithDelay`, embedded
Alpha Vantage service) -/

/-- The fields of an Alpha Vantage response body the code inspects:
the three error/limit message fields and the optional `Global Quote`
object (whose fields are strings). -/
structure AVBody where
  errorMessage : Option String
  information : Option String
  noteField : Option String
  globalQuote : Option (List (String × String))
deriving DecidableEq, Repr

/-- `isAlphaVantageError`: any of `Error Message`, `Information`, `Note`
present. -/
def isAlphaVantageError (b : AVBody) : Bool :=
  b.errorMessage.isSome || b.information.isSome || b.noteField.isSome

/-- URL built by `fetchStockPrices` for one symbol. -/
def stockQuoteUrl (symbol : String) : String :=
  "https://www.alphavantage.co/query?function=GLOBAL_QUOTE&symbol=" ++ symbol
    ++ "&apikey=7GAGSE3KBU6OX1RC"

/-- The price `fetchStockPrices` extracts from one symbol's outcome, `none`
on every per-symbol failure path: thrown `fetchWithDelay` (non-2xx or
network error, caught by the per-symbol `try`), a vendor error/rate-limit
payload, a missing or empty (falsy) `05. price` field, or a `parseFloat`
that yields `NaN`. -/
def avQuotePrice (outcome : HttpOutcome AVBody) : Option ℚ :=
  match outcome with
  | HttpOutcome.httpError _ => none
  | HttpOutcome.networkFailure _ => none
  | HttpOutcome.ok body =>
      if isAlphaVantageError body = true then none
      else
        match body.globalQuote with
        | some quote =>
            match quote.lookup "05. price" with
            | some priceStr =>
                if priceStr = "" then none else parseFloat priceStr
            | none => none
        | none => none

/-- One iteration of the `for (const symbol of symbols)` loop: on success
assign `results[symbol]`, on any failure leave `results` unchanged
(the code logs and `continue`s). -/
def processStockSymbol (oracle : String → HttpOutcome AVBody)
    (acc : AllPrices) (symbol : String) : AllPrices :=
  match avQuotePrice (oracle (stockQuoteUrl symbol)) with
  | some p => objInsert acc symbol ⟨p⟩
  | none => acc

/-- `fetchStockPrices`: empty input returns `{}` with no events; otherwise
one sequential pass over the symbols, each iteration first awaiting the
fixed 13000 ms `fetchWithDelay` timeout and then issuing the request. The
API key constant is set in the source, so the key guard never returns
early. -/
def fetchStockPrices (oracle : String → HttpOutcome AVBody)
    (symbols : List String) : List FetchEvent × AllPrices :=
  if symbols.isEmpty = true then ([], [])
  else
    (symbols.flatMap (fun s => [FetchEvent.delay 13000, FetchEvent.request s]),
     symbols.foldl (processStockSymbol oracle) [])

/-! ### Commodity adapter (`goldapi.server.ts`) -/

/-- A JSON field value as far as the commodity adapter inspects it:
`typeof data.price === 'number'` either holds or does not. -/
inductive GoldJsonField where
  | num (q : ℚ)
  | nonNumber
deriving DecidableEq, Repr

/-- The fields of a GoldAPI response body the code inspects. -/
structure GoldBody where
  error : Option String
  price : Option GoldJsonField
deriving DecidableEq, Repr

/-- `isGoldApiError`: the body has an `error` field. -/
def isGoldApiError (b : GoldBody) : Bool :=
  b.error.isSome

/-- URL built by `fetchCommodityPrices` for one (uppercased) symbol. -/
def goldPriceUrl (upperSymbol : String) : String :=
  "https://www.goldapi.io/api/" ++ upperSymbol ++ "/USD"

/-- The price `fetchCommodityPrices` extracts from one symbol's outcome,
`none` on every per-symbol failure path: non-2xx (`continue`), network
failure (caught), vendor error payload (`continue`), or a missing /
non-numeric `price` field. -/
def goldSpotPrice (outcome : HttpOutcome GoldBody) : Option ℚ :=
  match outcome with
  | HttpOutcome.httpError _ => none
  | HttpOutcome.networkFailure _ => none
  | HttpOutcome.ok body =>
      if isGoldApiError body = true then none
      else
        match body.price with
        | some (GoldJsonField.num q) => some q
        | some GoldJsonField.nonNumber => none
        | none => none

/-- One iteration of the commodity loop, keyed by the uppercased symbol. -/
def processCommoditySymbol (oracle : String → HttpOutcome GoldBody)
    (acc : AllPrices) (symbol : String) : AllPrices :=
  match goldSpotPrice (oracle (goldPriceUrl (toUpperString symbol))) with
  | some p => objInsert acc (toUpperString symbol) ⟨p⟩
  | none => acc

/-- `symbols.filter(s => supportedSymbols.includes(s.toUpperCase()))` with
the fixed allow-list `['XAU', 'XAG']`. -/
def commoditySymbolsToFetch (symbols : List String) : List String :=
  symbols.filter (fun s => toUpperString s = "XAU" ∨ toUpperString s = "XAG")

/-- `fetchCommodityPrices`: the input is first filtered to the supported
allow-list; an empty filtered list returns `{}` with no request. The loop
is sequential and — unlike the equity adapter — performs no delay between
requests (the source comments "No explicit delay added here"). The API key
constant passes the `startsWith('goldapi-')` guard. -/
def fetchCommodityPrices (oracle : String → HttpOutcome GoldBody)
    (symbols : List String) : List FetchEvent × AllPrices :=
  if (commoditySymbolsToFetch symbols).isEmpty = true then ([], [])
  else
    ((commoditySymbolsToFetch symbols).map
       (fun s => FetchEvent.request (toUpperString s)),
     (commoditySymbolsToFetch symbols).foldl (processCommoditySymbol oracle) [])

/-! ### Server-side loader (`_index.tsx`, `loader`) -/

/-- `new Date(entry[0]).toLocaleDateString()` is kept as the raw timestamp;
only `value` is consumed by the chart arithmetic the claims are about. -/
structure ChartPoint where
  date : Int
  value : ℚ
deriving DecidableEq, Repr

/-- What the loader `json(...)`s back, together with the HTTP status. -/
structure LoaderResult where
  currentPrices : AllPrices
  chartData : List ChartPoint
  chartAssetName : String
  status : Nat
deriving DecidableEq, Repr

/-- `param ? param.split(',').filter(id => id.trim() !== '') : []`. An
absent or empty (falsy) parameter yields `[]`; the empty string also splits
and filters to `[]`, so `none` covers both. -/
def splitParam : Option String → List String
  | none => []
  | some s => (splitCommas s).filter (fun x => trimString x ≠ "")

/-- The history leg of the parallel group: `Promise.resolve(null)` when
there is no crypto id, otherwise `fetchCryptoHistory(historyAssetId, 90)`,
which may throw. -/
def loaderHistoryRes (oracle : String → HttpOutcome HistoryResponse)
    (cryptoIds : List String) (now : Int) : Except String (Option HistoryResponse) :=
  match cryptoIds.head? with
  | some historyAssetId =>
      (fetchCryptoHistory oracle historyAssetId 90 now).map (fun h => some h)
  | none => Except.ok none

/-- `historyDataResult.prices.map(entry => ({date, value: entry[1]}))`,
and `[]` when there is no history. -/
def chartDataOf : Option HistoryResponse → List ChartPoint
  | some h => h.prices.map (fun entry => ⟨entry.1, entry.2⟩)
  | none => []

/-- The loader: parses the three comma-separated id parameters, runs the
crypto batch, the equity sequence, the commodity sequence and the history
fetch as one `Promise.all` group, merges the three price maps by object
spread, and on ANY rejection of the group falls into the `catch` branch
that returns an empty price map, no chart, the name `Error` and status 500.
Only `fetchCryptoPrices` and `fetchCryptoHistory` can reject; the equity
and commodity adapters absorb their failures and always resolve. -/
def loader (cryptoOracle : String → HttpOutcome AllPrices)
    (stockOracle : String → HttpOutcome AVBody)
    (goldOracle : String → HttpOutcome GoldBody)
    (historyOracle : String → HttpOutcome HistoryResponse)
    (cryptoIdsParam stockSymbolsParam commoditySymbolsParam : Option String)
    (now : Int) : LoaderResult :=
  let cryptoIds := splitParam cryptoIdsParam
  let stockSymbols := splitParam stockSymbolsParam
  let commoditySymbols := splitParam commoditySymbolsParam
  let cryptoRes := fetchCryptoPrices cryptoOracle cryptoIds
  let stockRes := (fetchStockPrices stockOracle stockSymbols).2
  let commodityRes := (fetchCommodityPrices goldOracle commoditySymbols).2
  let historyRes := loaderHistoryRes historyOracle cryptoIds now
  match cryptoRes, historyRes with
  | Except.ok cryptoPrices, Except.ok historyData =>
      ⟨spreadMerge (spreadMerge cryptoPrices stockRes) commodityRes,
       chartDataOf historyData,
       cryptoIds.head?.getD "N/A",
       200⟩
  | Except.error _, _ => ⟨[], [], "Error", 500⟩
  | _, Except.error _ => ⟨[], [], "Error", 500⟩

/-! ### Client component: refresh controller (Effect 2) -/

/-- The slice of `priceFetcher.data` Effect 2 reads. -/
structure FetcherData where
  currentPrices : AllPrices
  chartData : List ChartPoint
  chartAssetName : String
deriving DecidableEq, Repr

/-- `portfolio.filter(a => a.type === 'crypto' && a.id).map(a => a.id)`
(a nonempty id string is truthy). -/
def neededCryptoIds (portfolio : List Asset) : List String :=
  (portfolio.filter (fun a => a.type = AssetType.crypto ∧ a.id ≠ "")).map Asset.id

/-- Stock symbols needed by the current holdings. -/
def neededStockSymbols (portfolio : List Asset) : List String :=
  (portfolio.filter (fun a => a.type = AssetType.stock ∧ a.id ≠ "")).map Asset.id

/-- Commodity symbols needed by the current holdings (only XAU/XAG). -/
def neededCommoditySymbols (portfolio : List Asset) : List String :=
  (portfolio.filter
    (fun a => a.type = AssetType.commodity ∧ (a.id = "XAU" ∨ a.id = "XAG"))).map Asset.id

/-- The `&cryptoIds=...` query fragment (built from the unsorted list: the
in-place `sort()` happens after the query string is assembled). -/
def cryptoQueryOf (portfolio : List Asset) : String :=
  if (neededCryptoIds portfolio).isEmpty = true then ""
  else "&cryptoIds=" ++ joinCommas (neededCryptoIds portfolio)

/-- The `&stockSymbols=...` query fragment. -/
def stockQueryOf (portfolio : List Asset) : String :=
  if (neededStockSymbols portfolio).isEmpty = true then ""
  else "&stockSymbols=" ++ joinCommas (neededStockSymbols portfolio)

/-- The `&commoditySymbols=...` query fragment. -/
def commodityQueryOf (portfolio : List Asset) : String :=
  if (neededCommoditySymbols portfolio).isEmpty = true then ""
  else "&commoditySymbols=" ++ joinCommas (neededCommoditySymbols portfolio)

/-- `[...neededCryptoIds, ...neededStockIds, ...neededCommodityIds].sort().join(',')`. -/
def neededIdsJoined (portfolio : List Asset) : String :=
  joinCommas (sortStrings
    (neededCryptoIds portfolio ++ neededStockSymbols portfolio
      ++ neededCommoditySymbols portfolio))

/-- `cryptoIds.length > 0 ? cryptoIds[0] : 'N/A'` — note that by this line
`cryptoIds` has already been sorted in place by
`const neededCryptoIds = cryptoIds.sort()`, so index 0 is the
lexicographically smallest crypto id. -/
def neededChartNameOf (portfolio : List Asset) : String :=
  if (neededCryptoIds portfolio).isEmpty = true then "N/A"
  else (sortStrings (neededCryptoIds portfolio)).headD "N/A"

/-- `Object.keys(priceFetcher.data?.currentPrices ?? {}).sort().join(',')`. -/
def currentFetchedIdsOf (fetcherData : Option FetcherData) : String :=
  joinCommas (sortStrings
    (((fetcherData.map FetcherData.currentPrices).getD []).map Prod.fst))

/-- Effect 2, the refresh-controller trigger evaluation: given the current
holdings, whether the fetcher is idle, the last completed run's data (if
any) and the initial loader's chart asset name, decide whether to issue a
new aggregator run; `some q` means `priceFetcher.load(q)` is called. -/
def effect2 (portfolio : List Asset) (fetcherIdle : Bool)
    (fetcherData : Option FetcherData) (initialChartAssetName : String) :
    Option String :=
  if 0 < portfolio.length ∧ fetcherIdle = true then
    let query := "?index" ++ cryptoQueryOf portfolio ++ stockQueryOf portfolio
      ++ commodityQueryOf portfolio
    let currentChartName :=
      (fetcherData.map FetcherData.chartAssetName).getD initialChartAssetName
    if fetcherData.isNone = true
        ∨ neededIdsJoined portfolio ≠ currentFetchedIdsOf fetcherData
        ∨ neededChartNameOf portfolio ≠ currentChartName then
      some query
    else none
  else if fetcherIdle = false then none
  else
    match fetcherData with
    | some fd => if 0 < fd.currentPrices.length then some "?index" else none
    | none => none

/-! ### Client component: valuation (Memo 1, `portfolioWithCalculatedValues`) -/

/-- The `else if` chain after the fetchable-kind branch failed: manual
real-estate value, the `other` placeholder, or nothing. -/
def calcAssetFallback (asset : Asset) : CalculatedAsset :=
  if asset.type = AssetType.real_estate ∧ asset.currentValue.isSome = true then
    let calculatedValue := asset.currentValue.getD 0
    ⟨asset,
     if 0 < asset.quantity then some (calculatedValue / asset.quantity) else none,
     some calculatedValue⟩
  else if asset.type = AssetType.other then
    let calculatedValue := asset.purchaseValue.getD (asset.quantity * 50)
    ⟨asset,
     if 0 < asset.quantity then some (calculatedValue / asset.quantity) else none,
     some calculatedValue⟩
  else ⟨asset, none, none⟩

/-- The per-asset body of Memo 1: if a price record exists under the
asset's id and the kind is fetchable, take `price = record.usd` and
`calculatedValue = quantity * price`; otherwise fall through the
`else if` chain. -/
def calcAsset (currentPrices : AllPrices) (asset : Asset) : CalculatedAsset :=
  match currentPrices.lookup asset.id with
  | some assetPriceData =>
      if asset.type = AssetType.crypto ∨ asset.type = AssetType.stock
          ∨ asset.type = AssetType.commodity then
        ⟨asset, some assetPriceData.usd,
         some (asset.quantity * assetPriceData.usd)⟩
      else calcAssetFallback asset
  | none => calcAssetFallback asset

/-- Memo 1 over the whole portfolio. -/
def portfolioWithCalculatedValues (portfolio : List Asset)
    (currentPrices : AllPrices) : List CalculatedAsset :=
  portfolio.map (calcAsset currentPrices)

/-! ### Client component: chart projection (Effect 3) -/

/-- Effect 3's chart update: find the featured asset (only when the chart
name is truthy and neither `N/A` nor `Error`), and if it exists and the
server series is nonempty, scale every point's value by the asset's
current quantity; otherwise clear the chart. -/
def effect3ChartData (calculated : List CalculatedAsset)
    (serverChartData : List ChartPoint) (chartAssetName : String) :
    List ChartPoint :=
  let assetForChart :=
    if chartAssetName ≠ "" ∧ chartAssetName ≠ "N/A" ∧ chartAssetName ≠ "Error" then
      calculated.find? (fun a => a.id = chartAssetName)
    else none
  match assetForChart with
  | some assetFound =>
      if 0 < serverChartData.length then
        serverChartData.map (fun entry => ⟨entry.date, entry.value * assetFound.quantity⟩)
      else []
  | none => []

/-! ### Client component: persistence and handlers -/

/-- JS truthiness of an (absent or numeric) optional field: `undefined` and
`0` are falsy. -/
def truthyNum : Option ℚ → Bool
  | none => false
  | some v => v ≠ 0

/-- `getClientPortfolio`'s per-record numeric re-parse:
`quantity: parseFloat(asset.quantity || "0")` round-trips every stored
quantity (0 goes through the `"0"` fallback), while
`purchaseValue: asset.purchaseValue ? parseFloat(asset.purchaseValue) : undefined`
(and the same for `currentValue`) maps a stored falsy value — in
particular 0 — to `undefined`. -/
def reparseAsset (asset : Asset) : Asset :=
  ⟨asset.id, asset.type, asset.symbol, asset.name,
   asset.quantity,
   if truthyNum asset.purchaseValue = true then asset.purchaseValue else none,
   if truthyNum asset.currentValue = true then asset.currentValue else none⟩

/-- `saveClientPortfolio`: serialize the holdings after destructuring away
the derived `price` and `calculatedValue` fields; on the persisted `Asset`
records that destructuring is the identity, so the stored JSON array is the
list itself. -/
def saveClientPortfolio (portfolio : List Asset) : List Asset :=
  portfolio

/-- `getClientPortfolio`: parse the stored JSON array and re-parse the
numeric fields of every record. -/
def getClientPortfolio (storedData : List Asset) : List Asset :=
  storedData.map reparseAsset

/-- The state update of `handleAddAsset`: reject (and do not persist) when
a holding with the same id already exists, else append and persist. -/
def addAsset (prevPortfolio : List Asset) (newAsset : Asset) : List Asset :=
  if prevPortfolio.any (fun a => a.id = newAsset.id) = true then prevPortfolio
  else prevPortfolio ++ [newAsset]

/-- The state update of `handleRemoveAsset`: keep every holding whose id
differs, and persist. -/
def removeAsset (prevPortfolio : List Asset) (assetId : String) : List Asset :=
  prevPortfolio.filter (fun a => a.id ≠ assetId)

/-! ### Concrete fixtures used by witnesses and counterexamples -/

/-- A crypto holding: 2 bitcoin. -/
def btcHolding : Asset := ⟨"bitcoin", AssetType.crypto, "BTC", "Bitcoin", 2, none, none⟩

/-- An equity holding: 10 Apple shares. -/
def aaplHolding : Asset := ⟨"AAPL", AssetType.stock, "AAPL", "Apple Inc.", 10, none, none⟩

/-- A real-estate holding with a manual current value and 8 units. -/
def houseHolding : Asset :=
  ⟨"house-1", AssetType.real_estate, "HSE", "House", 8, none, some 250000⟩

/-- A real-estate holding with a manual current value and zero quantity. -/
def landHolding : Asset :=
  ⟨"land-1", AssetType.real_estate, "LND", "Land", 0, none, some 50000⟩

/-- An `other` holding with no purchase value. -/
def artHolding : Asset :=
  ⟨"asset-other-2", AssetType.other, "ART", "Artwork", 4, none, none⟩

/-- An `other` holding with a purchase value and zero quantity. -/
def wineHolding : Asset :=
  ⟨"asset-other-3", AssetType.other, "WIN", "Wine", 0, some 1200, none⟩

/-- An `other` holding whose stored purchase value is 0. -/
def zeroCostHolding : Asset :=
  ⟨"asset-other-1", AssetType.other, "OTH", "Collectible", 3, some 0, none⟩

/-! ### C4 — valuation of fetchable kinds -/

/-- C4 (confirmed). For every holding whose kind is crypto, equity (stock)
or commodity and whose id has an entry in the merged price map, Memo 1
yields `unitPrice = priceMap[id].price` and
`totalValue = quantity * unitPrice`, exactly. -/
theorem valuation_fetchable_kinds (currentPrices : AllPrices) (asset : Asset)
    (pd : PriceData)
    (hkind : asset.type = AssetType.crypto ∨ asset.type = AssetType.stock
      ∨ asset.type = AssetType.commodity)
    (hp : currentPrices.lookup asset.id = some pd) :
    (calcAsset currentPrices asset).price = some pd.usd
    ∧ (calcAsset currentPrices asset).calculatedValue
        = some (asset.quantity * pd.usd) := by
  unfold calcAsset
  rw [hp]
  rcases hkind with hk | hk | hk <;> simp [hk]

/-- C4 witness: 2 bitcoin at 50000 value to 100000. -/
theorem valuation_fetchable_kinds_witness :
    (calcAsset [("bitcoin", ⟨50000⟩)] btcHolding).price = some (50000 : ℚ)
    ∧ (calcAsset [("bitcoin", ⟨50000⟩)] btcHolding).calculatedValue
        = some (100000 : ℚ) := by
  have h := valuation_fetchable_kinds [("bitcoin", ⟨50000⟩)] btcHolding ⟨50000⟩
    (Or.inl rfl) rfl
  refine ⟨h.1, ?_⟩
  rw [h.2]
  norm_num [btcHolding]

/-! ### C7 — real-estate valuation guards the division -/

/-- C7 (confirmed). For every real-estate holding with a manual value, Memo
1 takes `totalValue = manualValue` and divides only when `quantity > 0`,
leaving `unitPrice` undefined at `quantity = 0`. -/
theorem real_estate_valuation_guards_division (currentPrices : AllPrices)
    (asset : Asset) (mv : ℚ)
    (hkind : asset.type = AssetType.real_estate)
    (hmv : asset.currentValue = some mv) :
    (calcAsset currentPrices asset).calculatedValue = some mv
    ∧ (0 < asset.quantity →
        (calcAsset currentPrices asset).price = some (mv / asset.quantity))
    ∧ (asset.quantity = 0 → (calcAsset currentPrices asset).price = none) := by
  have hfall : calcAsset currentPrices asset = calcAssetFallback asset := by
    unfold calcAsset
    cases hl : currentPrices.lookup asset.id with
    | none => rfl
    | some pd => simp [hkind]
  rw [hfall]
  unfold calcAssetFallback
  rw [if_pos ⟨hkind, by rw [hmv]; rfl⟩]
  refine ⟨by simp [hmv], fun hq => ?_, fun hq0 => ?_⟩
  · simp [hmv, hq]
  · simp [hmv, hq0]

/-- C7 witness: a house valued 250000 over 8 units prices each at 31250;
land with zero quantity has no unit price but keeps its 50000 value. -/
theorem real_estate_valuation_guards_division_witness :
    (calcAsset [] houseHolding).calculatedValue = some (250000 : ℚ)
    ∧ (calcAsset [] houseHolding).price = some ((250000 : ℚ) / 8)
    ∧ (calcAsset [] landHolding).price = none
    ∧ (calcAsset [] landHolding).calculatedValue = some (50000 : ℚ) := by
  have h1 := real_estate_valuation_guards_division [] houseHolding 250000 rfl rfl
  have h2 := real_estate_valuation_guards_division [] landHolding 50000 rfl rfl
  refine ⟨h1.1, ?_, h2.2.2 rfl, h2.1⟩
  rw [h1.2.1 (by norm_num [houseHolding])]
  norm_num [houseHolding]

/-! ### C8 — placeholder valuation for `other` -/

/-- C8 (confirmed). For every `other` holding, Memo 1 takes
`totalValue = purchaseValue` when defined and the `quantity * 50`
placeholder otherwise, with `unitPrice = totalValue / quantity` when
`quantity > 0` and undefined otherwise. -/
theorem other_placeholder_valuation (currentPrices : AllPrices) (asset : Asset)
    (hkind : asset.type = AssetType.other) :
    (asset.purchaseValue = none →
      (calcAsset currentPrices asset).calculatedValue
        = some (asset.quantity * 50))
    ∧ (∀ pv, asset.purchaseValue = some pv →
      (calcAsset currentPrices asset).calculatedValue = some pv)
    ∧ (0 < asset.quantity →
      (calcAsset currentPrices asset).price
        = some (asset.purchaseValue.getD (asset.quantity * 50) / asset.quantity))
    ∧ (¬ 0 < asset.quantity → (calcAsset currentPrices asset).price = none) := by
  have hfall : calcAsset currentPrices asset = calcAssetFallback asset := by
    unfold calcAsset
    cases hl : currentPrices.lookup asset.id with
    | none => rfl
    | some pd => simp [hkind]
  rw [hfall]
  unfold calcAssetFallback
  rw [if_neg (by simp [hkind]), if_pos hkind]
  refine ⟨fun hnone => by simp [hnone], fun pv hpv => by simp [hpv],
    fun hq => by simp [hq], fun hq => by simp [hq]⟩

/-- C8 witness: 4 artwork units with no purchase value are valued at
4 * 50 = 200 with unit price 50; wine with purchase value 1200 and zero
quantity keeps the 1200 total and no unit price. -/
theorem other_placeholder_valuation_witness :
    (calcAsset [] artHolding).calculatedValue = some (200 : ℚ)
    ∧ (calcAsset [] artHolding).price = some (50 : ℚ)
    ∧ (calcAsset [] wineHolding).calculatedValue = some (1200 : ℚ)
    ∧ (calcAsset [] wineHolding).price = none := by
  have h1 := other_placeholder_valuation [] artHolding rfl
  have h2 := other_placeholder_valuation [] wineHolding rfl
  refine ⟨?_, ?_, h2.2.1 1200 rfl, h2.2.2.2 (by norm_num [wineHolding])⟩
  · rw [h1.1 rfl]; norm_num [artHolding]
  · rw [h1.2.2.1 (by norm_num [artHolding])]; norm_num [artHolding]

/-! ### C5 — add then remove restores the persisted set -/

/-- C5 counterexample. Submitting a holding whose id already exists is
rejected without persisting, and the subsequent removal deletes the
pre-existing holding: the persisted set does not return to its prior
state. -/
theorem add_then_remove_duplicate_id_changes_store :
    removeAsset (addAsset [btcHolding] btcHolding) btcHolding.id ≠ [btcHolding] := by
  decide

/-- C5 (corrected). Provided no holding with the submitted id is already
present, adding and then removing it restores the persisted holdings set
exactly. -/
theorem add_then_remove_restores_amended (prior : List Asset) (h : Asset)
    (hid : ∀ a ∈ prior, a.id ≠ h.id) :
    removeAsset (addAsset prior h) h.id = prior := by
  have hany : prior.any (fun a => a.id = h.id) = false := by
    simp only [List.any_eq_false, decide_eq_true_eq]
    exact hid
  unfold addAsset removeAsset
  rw [hany]
  simp only [Bool.false_eq_true, if_false, List.filter_append]
  have h1 : List.filter (fun a => decide (a.id ≠ h.id)) [h] = [] := by simp
  have h2 : List.filter (fun a => decide (a.id ≠ h.id)) prior = prior :=
    List.filter_eq_self.mpr (fun a ha => by simpa using hid a ha)
  rw [h1, h2, List.append_nil]

/-- C5 witness: adding Apple to a bitcoin-only store and removing it again
restores the store. -/
theorem add_then_remove_restores_amended_witness :
    removeAsset (addAsset [btcHolding] aaplHolding) aaplHolding.id = [btcHolding] :=
  add_then_remove_restores_amended [btcHolding] aaplHolding (by decide)

/-! ### C6 — persistence round trip -/

/-- C6 counterexample. A stored `purchaseValue` of 0 is falsy, so the
load-side re-parse `asset.purchaseValue ? parseFloat(...) : undefined`
turns it into `undefined`: save-then-load is not the identity on a holding
whose stored purchase value is 0. -/
theorem zero_purchase_value_not_round_tripped :
    getClientPortfolio (saveClientPortfolio [zeroCostHolding]) ≠ [zeroCostHolding] := by
  decide

/-- The re-parse is the identity on a record whose optional numeric fields
are not the falsy 0. -/
theorem reparseAsset_eq_self (a : Asset) (h1 : a.purchaseValue ≠ some 0)
    (h2 : a.currentValue ≠ some 0) : reparseAsset a = a := by
  unfold reparseAsset
  have hp : (if truthyNum a.purchaseValue = true then a.purchaseValue else none)
      = a.purchaseValue := by
    cases hv : a.purchaseValue with
    | none => rfl
    | some v =>
        rw [if_pos]
        unfold truthyNum
        simpa using fun hv0 => h1 (by rw [hv, hv0])
  have hc : (if truthyNum a.currentValue = true then a.currentValue else none)
      = a.currentValue := by
    cases hv : a.currentValue with
    | none => rfl
    | some v =>
        rw [if_pos]
        unfold truthyNum
        simpa using fun hv0 => h2 (by rw [hv, hv0])
  rw [hp, hc]

/-- C6 (corrected). Save-then-load is the identity on every holdings list
in which no stored `purchaseValue` or `manualValue` is 0; every other
numeric field (including a quantity of 0, which goes through the
`|| "0"` fallback) round-trips. -/
theorem persistence_round_trip_amended (l : List Asset)
    (hz : ∀ a ∈ l, a.purchaseValue ≠ some 0 ∧ a.currentValue ≠ some 0) :
    getClientPortfolio (saveClientPortfolio l) = l := by
  unfold getClientPortfolio saveClientPortfolio
  induction l with
  | nil => rfl
  | cons a t ih =>
      have ha := hz a (List.mem_cons_self a t)
      rw [List.map_cons, reparseAsset_eq_self a ha.1 ha.2,
        ih (fun x hx => hz x (List.mem_cons_of_mem a hx))]

/-- C6 witness: a mixed list with nonzero and absent optional fields (and a
zero quantity) survives the round trip. -/
theorem persistence_round_trip_amended_witness :
    getClientPortfolio (saveClientPortfolio [btcHolding, wineHolding, landHolding])
      = [btcHolding, wineHolding, landHolding] :=
  persistence_round_trip_amended [btcHolding, wineHolding, landHolding] (by decide)

/-! ### C10 — chart values scale by current quantity -/

/-- C10 (confirmed). When the featured asset is found in the calculated
portfolio under a real chart name, every rendered point is the historical
value times the asset's current quantity; when no holding carries the
featured id, or the server series is empty, the rendered chart is empty. -/
theorem chart_scales_by_current_quantity (calculated : List CalculatedAsset)
    (serverChartData : List ChartPoint) (chartAssetName : String)
    (assetFound : CalculatedAsset) :
    (chartAssetName ≠ "" → chartAssetName ≠ "N/A" → chartAssetName ≠ "Error" →
      calculated.find? (fun a => a.id = chartAssetName) = some assetFound →
      effect3ChartData calculated serverChartData chartAssetName
        = serverChartData.map
            (fun entry => ⟨entry.date, entry.value * assetFound.quantity⟩))
    ∧ ((∀ a ∈ calculated, a.id ≠ chartAssetName) →
      effect3ChartData calculated serverChartData chartAssetName = [])
    ∧ (serverChartData = [] →
      effect3ChartData calculated serverChartData chartAssetName = []) := by
  refine ⟨fun h1 h2 h3 hfind => ?_, fun hnone => ?_, fun hempty => ?_⟩
  · unfold effect3ChartData
    rw [if_pos ⟨h1, h2, h3⟩, hfind]
    cases serverChartData with
    | nil => rfl
    | cons p rest => simp
  · have hf : calculated.find? (fun a => a.id = chartAssetName) = none :=
      List.find?_eq_none.mpr (fun x hx => by simpa using hnone x hx)
    unfold effect3ChartData
    by_cases hcond : chartAssetName ≠ "" ∧ chartAssetName ≠ "N/A" ∧ chartAssetName ≠ "Error"
    · rw [if_pos hcond, hf]
    · rw [if_neg hcond]
  · subst hempty
    unfold effect3ChartData
    by_cases hcond : chartAssetName ≠ "" ∧ chartAssetName ≠ "N/A" ∧ chartAssetName ≠ "Error"
    · rw [if_pos hcond]
      cases calculated.find? (fun a => a.id = chartAssetName) with
      | none => rfl
      | some a => rfl
    · rw [if_neg hcond]

/-- C10 witness: with 2 bitcoin featured, a server point at 47000 renders
at 94000, and an unrelated featured id clears the chart. -/
theorem chart_scales_by_current_quantity_witness :
    effect3ChartData (portfolioWithCalculatedValues [btcHolding] [("bitcoin", ⟨50000⟩)])
      [⟨100, 47000⟩] "bitcoin" = [⟨(100 : Int), (94000 : ℚ)⟩]
    ∧ effect3ChartData (portfolioWithCalculatedValues [btcHolding] [("bitcoin", ⟨50000⟩)])
      [⟨100, 47000⟩] "dogecoin" = [] := by
  have h := (chart_scales_by_current_quantity
    (portfolioWithCalculatedValues [btcHolding] [("bitcoin", ⟨50000⟩)])
    [⟨100, 47000⟩] "bitcoin" (calcAsset [("bitcoin", ⟨50000⟩)] btcHolding)).1
    (by decide) (by decide) (by decide) rfl
  have h2 := (chart_scales_by_current_quantity
    (portfolioWithCalculatedValues [btcHolding] [("bitcoin", ⟨50000⟩)])
    [⟨100, 47000⟩] "dogecoin" (calcAsset [("bitcoin", ⟨50000⟩)] btcHolding)).2.1
    (by decide)
  refine ⟨?_, h2⟩
  rw [h]
  norm_num [calcAsset, btcHolding]

/-! ### Helper lemmas about the object map and the adapter loops -/

/-- Overwriting the value stored under key `k` in place does not change
lookups of a different key. -/
theorem lookup_map_overwrite (k k2 : String) (v : PriceData) (h : k2 ≠ k)
    (t : AllPrices) :
    (t.map (fun p => if p.1 = k then (k, v) else p)).lookup k2 = t.lookup k2 := by
  induction t with
  | nil => rfl
  | cons p rest ih =>
      obtain ⟨a, b⟩ := p
      by_cases hak : a = k
      · subst hak
        have hb : (k2 == a) = false := by simpa using h
        simp [List.lookup_cons, hb, ih]
      · simp only [List.map_cons, if_neg hak, List.lookup_cons]
        by_cases hk2 : k2 = a
        · simp [hk2]
        · simp [hk2, ih]

/-- Appending a binding for key `k` does not change lookups of a different
key. -/
theorem lookup_append_single (k k2 : String) (v : PriceData) (h : k2 ≠ k)
    (t : AllPrices) :
    (t ++ [(k, v)]).lookup k2 = t.lookup k2 := by
  induction t with
  | nil =>
      have hb : (k2 == k) = false := by simpa using h
      simp [List.lookup, hb]
  | cons p rest ih =>
      obtain ⟨a, b⟩ := p
      simp only [List.cons_append, List.lookup_cons]
      by_cases hk2 : k2 = a
      · simp [hk2]
      · simp [hk2, ih]

/-- Writing key `k` does not change lookups of a different key. -/
theorem lookup_objInsert_ne (m : AllPrices) (k k2 : String) (v : PriceData)
    (h : k2 ≠ k) : (objInsert m k v).lookup k2 = m.lookup k2 := by
  unfold objInsert
  split
  · exact lookup_map_overwrite k k2 v h m
  · exact lookup_append_single k k2 v h m

/-- If the equity adapter's per-symbol extraction fails at symbol `s`, no
iteration of the loop ever writes key `s`. -/
theorem stock_foldl_lookup_none (oracle : String → HttpOutcome AVBody)
    (s : String) (hfail : avQuotePrice (oracle (stockQuoteUrl s)) = none)
    (symbols : List String) :
    ∀ acc : AllPrices, acc.lookup s = none →
      (symbols.foldl (processStockSymbol oracle) acc).lookup s = none := by
  induction symbols with
  | nil => exact fun acc h => h
  | cons t rest ih =>
      intro acc hacc
      rw [List.foldl_cons]
      apply ih
      unfold processStockSymbol
      cases hq : avQuotePrice (oracle (stockQuoteUrl t)) with
      | none => exact hacc
      | some p =>
          by_cases hts : t = s
          · rw [hts] at hq
            rw [hq] at hfail
            exact absurd hfail (by simp)
          · rw [lookup_objInsert_ne acc t s ⟨p⟩ (fun hst => hts hst.symm)]
            exact hacc

/-- If the commodity adapter's per-symbol extraction fails at the
(uppercased) key `u`, no iteration of the loop ever writes key `u`. -/
theorem gold_foldl_lookup_none (oracle : String → HttpOutcome GoldBody)
    (u : String) (hfail : goldSpotPrice (oracle (goldPriceUrl u)) = none)
    (symbols : List String) :
    ∀ acc : AllPrices, acc.lookup u = none →
      (symbols.foldl (processCommoditySymbol oracle) acc).lookup u = none := by
  induction symbols with
  | nil => exact fun acc h => h
  | cons t rest ih =>
      intro acc hacc
      rw [List.foldl_cons]
      apply ih
      unfold processCommoditySymbol
      by_cases htu : toUpperString t = u
      · rw [htu, hfail]
        exact hacc
      · cases hq : goldSpotPrice (oracle (goldPriceUrl (toUpperString t))) with
        | none => exact hacc
        | some p =>
            rw [lookup_objInsert_ne acc (toUpperString t) u ⟨p⟩
              (fun hst => htu hst.symm)]
            exact hacc

/-- Delay total of the equity loop's trace. -/
theorem totalDelay_stock_trace (l : List String) :
    totalDelay (l.flatMap
      (fun s => [FetchEvent.delay 13000, FetchEvent.request s]))
      = 13000 * l.length := by
  induction l with
  | nil => rfl
  | cons t rest ih =>
      have hstep : (t :: rest).flatMap
          (fun s => [FetchEvent.delay 13000, FetchEvent.request s])
          = FetchEvent.delay 13000 :: FetchEvent.request t
              :: rest.flatMap
                (fun s => [FetchEvent.delay 13000, FetchEvent.request s]) := rfl
      rw [hstep]
      simp only [totalDelay, ih, List.length_cons]
      omega

/-- Delay total of a request-only trace. -/
theorem totalDelay_requests (f : String → String) (l : List String) :
    totalDelay (l.map (fun s => FetchEvent.request (f s))) = 0 := by
  induction l with
  | nil => rfl
  | cons t rest ih => simpa [totalDelay] using ih

/-! ### C3 — per-id degradation in every adapter -/

/-- C3 counterexample. The crypto adapter does not degrade a non-2xx
response to "id absent": it throws the batch-level error past its
boundary. -/
theorem crypto_adapter_throws_on_http_error :
    fetchCryptoPrices (fun _ => HttpOutcome.httpError 429) ["bitcoin"]
      = Except.error "CoinGecko API request failed: 429" := rfl

/-- C3 (corrected). The equity and commodity adapters degrade every
per-symbol failure — non-2xx, network failure, vendor error/rate-limit
payload, missing or malformed numeric price — to that id being absent
from the returned mapping; the crypto adapter instead throws on a non-2xx
batch response (and performs no payload validation on a 2xx body, which it
returns as-is). -/
theorem adapter_per_id_degradation_amended
    (stockOracle : String → HttpOutcome AVBody)
    (goldOracle : String → HttpOutcome GoldBody)
    (cryptoOracle : String → HttpOutcome AllPrices)
    (symbols gsymbols ids : List String) (s g : String) (code : Nat) :
    (avQuotePrice (stockOracle (stockQuoteUrl s)) = none →
      (fetchStockPrices stockOracle symbols).2.lookup s = none)
    ∧ (goldSpotPrice (goldOracle (goldPriceUrl (toUpperString g))) = none →
      (fetchCommodityPrices goldOracle gsymbols).2.lookup (toUpperString g) = none)
    ∧ (ids.isEmpty = false →
      cryptoOracle (cryptoPriceUrl ids) = HttpOutcome.httpError code →
      fetchCryptoPrices cryptoOracle ids
        = Except.error ("CoinGecko API request failed: " ++ toString code)) := by
  refine ⟨fun hfail => ?_, fun hfail => ?_, fun hne horacle => ?_⟩
  · unfold fetchStockPrices
    split
    · rfl
    · exact stock_foldl_lookup_none stockOracle s hfail symbols [] rfl
  · unfold fetchCommodityPrices
    split
    · rfl
    · exact gold_foldl_lookup_none goldOracle (toUpperString g) hfail _ [] rfl
  · unfold fetchCryptoPrices
    rw [if_neg (by simp [hne]), horacle]

/-- C3 witness: a 503 for every equity symbol, a vendor error payload for
every commodity symbol, and a 429 for the crypto batch. -/
theorem adapter_per_id_degradation_amended_witness :
    (fetchStockPrices (fun _ => HttpOutcome.httpError 503) ["AAPL", "MSFT"]).2.lookup "AAPL" = none
    ∧ (fetchCommodityPrices (fun _ => HttpOutcome.ok ⟨some "quota exceeded", none⟩)
        ["XAU", "XAG"]).2.lookup "XAU" = none
    ∧ fetchCryptoPrices (fun _ => HttpOutcome.httpError 429) ["bitcoin", "ethereum"]
        = Except.error "CoinGecko API request failed: 429" := by
  have h := adapter_per_id_degradation_amended
    (fun _ => HttpOutcome.httpError 503)
    (fun _ => HttpOutcome.ok ⟨some "quota exceeded", none⟩)
    (fun _ => HttpOutcome.httpError 429)
    ["AAPL", "MSFT"] ["XAU", "XAG"] ["bitcoin", "ethereum"] "AAPL" "XAU" 429
  exact ⟨h.1 rfl, h.2.1 rfl, h.2.2 rfl rfl⟩

/-! ### C9 — rate-limit delay discipline -/

/-- C9 counterexample. The commodity adapter issues its sequential
requests back to back with zero delay between them (the equity adapter, by
contrast, delays 13000 ms before each request): there is no inter-request
delay in the commodity adapter. -/
theorem commodity_adapter_has_no_delay :
    (fetchCommodityPrices
        (fun _ => HttpOutcome.ok ⟨none, some (GoldJsonField.num 2400)⟩)
        ["XAU", "XAG"]).1
      = [FetchEvent.request "XAU", FetchEvent.request "XAG"]
    ∧ totalDelay [FetchEvent.request "XAU", FetchEvent.request "XAG"] = 0
    ∧ (fetchStockPrices (fun _ => HttpOutcome.httpError 503) ["AAPL"]).1
      = [FetchEvent.delay 13000, FetchEvent.request "AAPL"] :=
  ⟨rfl, rfl, rfl⟩

/-- C9 (corrected). The equity adapter delays a fixed 13000 ms before each
of its sequential per-symbol requests — a batch of 3 symbols accumulates at
least 2 × 13000 ms of delay — but the commodity adapter, while sequential,
performs no inter-request delay at all. -/
theorem rate_limit_delay_amended
    (stockOracle : String → HttpOutcome AVBody)
    (goldOracle : String → HttpOutcome GoldBody)
    (symbols gsymbols : List String) (s1 s2 s3 : String) :
    totalDelay (fetchStockPrices stockOracle symbols).1 = 13000 * symbols.length
    ∧ totalDelay (fetchCommodityPrices goldOracle gsymbols).1 = 0
    ∧ 2 * 13000 ≤ totalDelay (fetchStockPrices stockOracle [s1, s2, s3]).1 := by
  have hstock : ∀ l : List String,
      totalDelay (fetchStockPrices stockOracle l).1 = 13000 * l.length := by
    intro l
    unfold fetchStockPrices
    split
    · rename_i hl
      rw [List.isEmpty_iff.mp hl]
      rfl
    · exact totalDelay_stock_trace l
  refine ⟨hstock symbols, ?_, ?_⟩
  · unfold fetchCommodityPrices
    split
    · rfl
    · exact totalDelay_requests toUpperString _
  · rw [hstock [s1, s2, s3]]
    norm_num

/-! ### C1 — failure isolation of a refresh -/

/-- C1 counterexample. A single failing request — the crypto batch
answering 429 — while the equity, commodity and history requests all
succeed, makes the whole loader return the error state: empty `PriceMap`,
no chart, name `Error`, status 500. The second conjunct shows the same
commodity oracle on its own produces a price, so the collapse discards the
healthy adapters' data. -/
theorem crypto_failure_collapses_refresh :
    loader (fun _ => HttpOutcome.httpError 429)
      (fun _ => HttpOutcome.ok ⟨none, none, none, some [("05. price", "123.45")]⟩)
      (fun _ => HttpOutcome.ok ⟨none, some (GoldJsonField.num 2400)⟩)
      (fun _ => HttpOutcome.ok ⟨[]⟩)
      (some "bitcoin") (some "AAPL") (some "XAU") 0 = ⟨[], [], "Error", 500⟩
    ∧ (fetchCommodityPrices
        (fun _ => HttpOutcome.ok ⟨none, some (GoldJsonField.num 2400)⟩)
        ["XAU"]).2 = [("XAU", ⟨2400⟩)] :=
  ⟨rfl, rfl⟩

/-- C1 (corrected). Failure isolation holds for the equity and commodity
adapters: whatever their oracles answer, the loader result is decided only
by the crypto and history legs, and equity/commodity failures merely leave
ids out of the merged map. But when the crypto batch or the history fetch
fails, the whole `Promise.all` group rejects and the loader degrades to the
empty-PriceMap error state (status 500) instead of keeping the other
adapters' results. -/
theorem loader_failure_isolation_amended
    (cryptoOracle : String → HttpOutcome AllPrices)
    (stockOracle : String → HttpOutcome AVBody)
    (goldOracle : String → HttpOutcome GoldBody)
    (historyOracle : String → HttpOutcome HistoryResponse)
    (cp sp mp : Option String) (now : Int) :
    (∀ cryptoPrices historyData,
      fetchCryptoPrices cryptoOracle (splitParam cp) = Except.ok cryptoPrices →
      loaderHistoryRes historyOracle (splitParam cp) now = Except.ok historyData →
      loader cryptoOracle stockOracle goldOracle historyOracle cp sp mp now
        = ⟨spreadMerge
             (spreadMerge cryptoPrices (fetchStockPrices stockOracle (splitParam sp)).2)
             (fetchCommodityPrices goldOracle (splitParam mp)).2,
           chartDataOf historyData, (splitParam cp).head?.getD "N/A", 200⟩)
    ∧ (∀ e, fetchCryptoPrices cryptoOracle (splitParam cp) = Except.error e →
      loader cryptoOracle stockOracle goldOracle historyOracle cp sp mp now
        = ⟨[], [], "Error", 500⟩)
    ∧ (∀ e, loaderHistoryRes historyOracle (splitParam cp) now = Except.error e →
      loader cryptoOracle stockOracle goldOracle historyOracle cp sp mp now
        = ⟨[], [], "Error", 500⟩) := by
  refine ⟨fun cryptoPrices historyData h1 h2 => ?_, fun e he => ?_, fun e he => ?_⟩
  · simp only [loader]
    rw [h1, h2]
  · simp only [loader]
    rw [he]
    cases hh : loaderHistoryRes historyOracle (splitParam cp) now with
    | ok a => rfl
    | error e2 => rfl
  · simp only [loader]
    rw [he]
    cases hcr : fetchCryptoPrices cryptoOracle (splitParam cp) with
    | ok a => rfl
    | error e2 => rfl

/-- C1 witness: crypto and history succeed while the equity and commodity
requests both fail at the network level; the refresh still returns status
200 with the crypto price and the chart series. -/
theorem loader_failure_isolation_amended_witness :
    loader (fun _ => HttpOutcome.ok [("bitcoin", ⟨50000⟩)])
      (fun _ => HttpOutcome.networkFailure "down")
      (fun _ => HttpOutcome.networkFailure "down")
      (fun _ => HttpOutcome.ok ⟨[((0 : Int), (45000 : ℚ))]⟩)
      (some "bitcoin") (some "AAPL") (some "XAU") 1000000000000
      = ⟨[("bitcoin", ⟨50000⟩)], [⟨0, 45000⟩], "bitcoin", 200⟩ := by
  have h := (loader_failure_isolation_amended
    (fun _ => HttpOutcome.ok [("bitcoin", ⟨50000⟩)])
    (fun _ => HttpOutcome.networkFailure "down")
    (fun _ => HttpOutcome.networkFailure "down")
    (fun _ => HttpOutcome.ok ⟨[((0 : Int), (45000 : ℚ))]⟩)
    (some "bitcoin") (some "AAPL") (some "XAU") 1000000000000).1
    [("bitcoin", ⟨50000⟩)] (some ⟨[((0 : Int), (45000 : ℚ))]⟩) rfl rfl
  rw [h]
  rfl

/-! ### C2 — refresh deduplication -/

/-- C2 counterexample. A completed run that requested exactly the needed id
set (`stockSymbols=AAPL`, featured identifier `N/A`) but got rate-limited
returns an empty price map; the next trigger evaluation — with the needed
id set and featured identifier unchanged — issues a new run anyway,
because the code compares the needed ids against the keys of the returned
price map rather than against the ids the last run was issued with. Two
such consecutive evaluations issue two runs, not at most one. -/
theorem refresh_dedup_violated_after_partial_result :
    loader (fun _ => HttpOutcome.networkFailure "unused")
      (fun _ => HttpOutcome.ok ⟨none, some "rate limit", none, none⟩)
      (fun _ => HttpOutcome.networkFailure "unused")
      (fun _ => HttpOutcome.networkFailure "unused")
      none (some "AAPL") none 0 = ⟨[], [], "N/A", 200⟩
    ∧ splitParam (some "AAPL") = neededStockSymbols [aaplHolding]
    ∧ neededChartNameOf [aaplHolding] = "N/A"
    ∧ effect2 [aaplHolding] true (some ⟨[], [], "N/A"⟩) "N/A"
        = some "?index&stockSymbols=AAPL" :=
  ⟨rfl, rfl, rfl, rfl⟩

/-- C2 (corrected). The trigger comparison is against the key set of the
last run's returned price map (sorted, joined) and the last run's chart
asset name, not against the ids the run was issued with: whenever the
needed id set equals those returned keys and the needed featured
identifier equals the returned chart name, no new run is issued. -/
theorem refresh_dedup_amended (portfolio : List Asset) (fd : FetcherData)
    (initialChartAssetName : String)
    (hne : 0 < portfolio.length)
    (hids : neededIdsJoined portfolio = currentFetchedIdsOf (some fd))
    (hchart : neededChartNameOf portfolio = fd.chartAssetName) :
    effect2 portfolio true (some fd) initialChartAssetName = none := by
  unfold effect2
  rw [if_pos ⟨hne, rfl⟩]
  rw [if_neg]
  intro hcond
  rcases hcond with habs | hne2 | hne3
  · simp at habs
  · exact hne2 hids
  · exact hne3 (by
      simpa using hchart)

/-- C2 witness: after a run whose returned price map covers exactly the
needed id (`bitcoin`) and whose chart name is the needed featured
identifier, the evaluation issues no run. -/
theorem refresh_dedup_amended_witness :
    effect2 [btcHolding] true (some ⟨[("bitcoin", ⟨50000⟩)], [], "bitcoin"⟩) "N/A"
      = none :=
  refresh_dedup_amended [btcHolding] ⟨[("bitcoin", ⟨50000⟩)], [], "bitcoin"⟩ "N/A"
    (by decide) (by decide) (by decide)

end PortfolioTracker
